import Mathlib

/-!
# Verification of the KANJIDIC2 → SQLite builder

Shallow embedding of `src/k2sqlite/builder.py`: the streaming record
accumulator, the field classifiers (integer parsing, dedup, modern-JLPT
derivation), the insert layer, the batch-commit loop of `build_sqlite`,
and the DDL script of `ensure_schema`.

Python `None`-able integers become `Option Nat` (all integers parsed by
the builder come from `str.isdigit`, hence are non-negative).  XML
elements are modelled by their tag, optional text, and attribute list —
the only parts the builder reads.
-/

namespace K2Sqlite

/-- An XML element as the builder sees it: tag name, optional direct text,
attribute list (`elem.get(k)` is association-list lookup). -/
structure XmlElem where
  tag : String
  txt : Option String := none
  attrs : List (String × String) := []
deriving Repr, DecidableEq

/-- `elem.get(key)` from Python's ElementTree: first matching attribute, else `None`. -/
def XmlElem.getAttr (e : XmlElem) (key : String) : Option String :=
  (e.attrs.find? (fun p => p.1 = key)).map (fun p => p.2)

/-- Python's `str.strip()`: drop leading and trailing whitespace. -/
def pyStrip (s : String) : String :=
  ⟨((s.data.dropWhile Char.isWhitespace).reverse.dropWhile Char.isWhitespace).reverse⟩

/-- `text(el)` from builder.py line 7: `el.text.strip() if el is not None and el.text else ""`.
The element is always present at the call sites we model, so only the
text-missing/empty case of the guard remains. -/
def textOf (e : XmlElem) : String :=
  match e.txt with
  | none => ""
  | some t => if t = "" then "" else pyStrip t

/-- Python's `str.isdigit` restricted to ASCII: non-empty and all characters digits. -/
def pyIsDigit (s : String) : Bool :=
  !s.data.isEmpty && s.data.all Char.isDigit

/-- The numeric value of a digit string (`int(text)` at the one call site,
which is guarded by `isdigit`). -/
def digitVal (s : String) : Nat :=
  s.data.foldl (fun acc c => acc * 10 + (c.toNat - 48)) 0

/-- `_parse_integer_field(elem, current_value)` (builder.py lines 164–175):
missing text or a non-digit trimmed text leaves `current_value` unchanged;
otherwise the parsed value, or its `max` with the current value when one is set. -/
def parseIntegerField (e : XmlElem) (current : Option Nat) : Option Nat :=
  match e.txt with
  | none => current
  | some t =>
    let s := pyStrip t
    if pyIsDigit s then
      match current with
      | none => some (digitVal s)
      | some c => some (max c (digitVal s))
    else current

/-- The transient character record, `_create_empty_record()` fields
(builder.py lines 148–161). -/
structure KanjiRecord where
  literal : String := ""
  grade : Option Nat := none
  stroke_count : Option Nat := none
  freq : Option Nat := none
  jlpt : Option Nat := none
  radicals : List String := []
  readings_on : List String := []
  readings_kun : List String := []
  meanings_en : List String := []
  variants : List (String × String) := []
deriving Repr, DecidableEq

/-- `_create_empty_record()` (builder.py lines 148–161). -/
def emptyRecord : KanjiRecord := {}

/-- `_process_start_element(tag, rec)` (builder.py lines 178–182):
a `character` start unconditionally opens a fresh empty record. -/
def processStartElement (tag : String) (rec : Option KanjiRecord) : Option KanjiRecord :=
  if tag = "character" then some emptyRecord else rec

/-- `_process_radical` (builder.py lines 212–217): keep only
`rad_type="classical"` entries with non-empty text. -/
def processRadical (e : XmlElem) (r : KanjiRecord) : KanjiRecord :=
  if e.getAttr "rad_type" = some "classical" then
    let value := textOf e
    if value ≠ "" then { r with radicals := r.radicals ++ [value] } else r
  else r

/-- `_process_reading` (builder.py lines 220–230): route `ja_on`/`ja_kun`
readings with non-empty text; drop other kinds. -/
def processReading (e : XmlElem) (r : KanjiRecord) : KanjiRecord :=
  let rtype := e.getAttr "r_type"
  let value := textOf e
  if value = "" then r
  else if rtype = some "ja_on" then { r with readings_on := r.readings_on ++ [value] }
  else if rtype = some "ja_kun" then { r with readings_kun := r.readings_kun ++ [value] }
  else r

/-- `_process_meaning` (builder.py lines 233–238): keep non-empty meanings
whose `m_lang` is absent or `"en"`. -/
def processMeaning (e : XmlElem) (r : KanjiRecord) : KanjiRecord :=
  let lang := e.getAttr "m_lang"
  let value := textOf e
  if value ≠ "" ∧ (lang = none ∨ lang = some "en") then
    { r with meanings_en := r.meanings_en ++ [value] }
  else r

/-- `_process_variant` (builder.py lines 241–246): the kind is
`elem.get("var_type") or "unknown"`, so an absent or empty (falsy) kind
becomes `"unknown"`; the value must be non-empty. -/
def processVariant (e : XmlElem) (r : KanjiRecord) : KanjiRecord :=
  let vtype := match e.getAttr "var_type" with
    | none => "unknown"
    | some a => if a = "" then "unknown" else a
  let value := textOf e
  if value ≠ "" then { r with variants := r.variants ++ [(vtype, value)] } else r

/-- `_process_end_element(tag, elem, rec)` (builder.py lines 185–209):
`None` stays `None`; otherwise dispatch on the tag, unrecognized tags
(including `character` itself) leave the record unchanged. -/
def processEndElement (tag : String) (e : XmlElem) (rec : Option KanjiRecord) :
    Option KanjiRecord :=
  match rec with
  | none => none
  | some r =>
    if tag = "literal" then some { r with literal := textOf e }
    else if tag = "grade" then some { r with grade := parseIntegerField e none }
    else if tag = "stroke_count" then
      some { r with stroke_count := parseIntegerField e r.stroke_count }
    else if tag = "freq" then some { r with freq := parseIntegerField e none }
    else if tag = "jlpt" then some { r with jlpt := parseIntegerField e none }
    else if tag = "rad_value" then some (processRadical e r)
    else if tag = "reading" then some (processReading e r)
    else if tag = "meaning" then some (processMeaning e r)
    else if tag = "variant" then some (processVariant e r)
    else some r

/-- `_calculate_modern_jlpt(grade, freq, old_jlpt)` (builder.py lines 249–279). -/
def calculateModernJlpt (grade freq oldJlpt : Option Nat) : Nat :=
  if oldJlpt = some 4 then 5
  else if oldJlpt = some 3 then 4
  else if oldJlpt = some 2 then 3
  else if oldJlpt = some 1 then 2
  else if (match freq with | some f => decide (f ≤ 200) | none => false)
          && (grade == some 1 || grade == some 2) then 5
  else if (match freq with | some f => decide (f ≤ 500) | none => false)
          && (grade == some 3 || grade == some 4) then 4
  else if (match freq with | some f => decide (f ≤ 1000) | none => false)
          && (grade == some 5 || grade == some 6) then 3
  else 1

/-- `_dedup_preserve(items)` (builder.py lines 11–19), with the `seen`
set carried explicitly. -/
def dedupAux {α : Type} [DecidableEq α] (seen : List α) : List α → List α
  | [] => []
  | x :: xs => if x ∈ seen then dedupAux seen xs else x :: dedupAux (x :: seen) xs

/-- `_dedup_preserve(items)`: remove duplicates while preserving order. -/
def dedupPreserve {α : Type} [DecidableEq α] (items : List α) : List α :=
  dedupAux [] items

/-- A row of the `kanji` table (builder.py lines 31–37): every column but the
primary key is nullable in the schema, so each is an `Option`. -/
structure KanjiRow where
  literal : String
  grade : Option Nat
  stroke_count : Option Nat
  freq : Option Nat
  jlpt : Option Nat
deriving Repr, DecidableEq

/-- The destination tables touched by `_insert_character_data`
(schema in `ensure_schema`, builder.py lines 31–70). -/
structure Db where
  kanji : List KanjiRow := []
  kanji_radical : List (String × String) := []
  kanji_reading : List (String × String × String) := []
  kanji_meaning : List (String × String × String) := []
  kanji_variant : List (String × String × String) := []
deriving Repr, DecidableEq

/-- `INSERT OR REPLACE INTO kanji` under the `literal` primary key:
any existing row with the same literal is replaced. -/
def upsertKanji (tbl : List KanjiRow) (row : KanjiRow) : List KanjiRow :=
  (tbl.filter (fun r => r.literal ≠ row.literal)) ++ [row]

/-- `INSERT OR IGNORE` under a uniqueness constraint covering the whole row
(the unique indexes of builder.py lines 67–70 cover every inserted column):
an already-present row is ignored. -/
def insertOrIgnore {α : Type} [DecidableEq α] (tbl : List α) (row : α) : List α :=
  if row ∈ tbl then tbl else tbl ++ [row]

/-- The `kanji` row built by the `INSERT OR REPLACE` of
`_insert_character_data` (builder.py lines 287–299): source fields plus the
derived modern JLPT level. -/
def kanjiRowOf (rec : KanjiRecord) : KanjiRow :=
  { literal := rec.literal, grade := rec.grade, stroke_count := rec.stroke_count,
    freq := rec.freq, jlpt := some (calculateModernJlpt rec.grade rec.freq rec.jlpt) }

/-- `_insert_character_data(cur, rec)` (builder.py lines 282–330): the upsert
into `kanji` with the derived modern JLPT level, then the deduplicated
ignore-on-conflict inserts into each child table. -/
def insertCharacterData (db : Db) (rec : KanjiRecord) : Db :=
  let literal := rec.literal
  { kanji := upsertKanji db.kanji (kanjiRowOf rec)
    kanji_radical :=
      (dedupPreserve rec.radicals).foldl
        (fun t radical => insertOrIgnore t (literal, radical)) db.kanji_radical
    kanji_reading :=
      (dedupPreserve rec.readings_kun).foldl
        (fun t reading => insertOrIgnore t (literal, "kun", reading))
        ((dedupPreserve rec.readings_on).foldl
          (fun t reading => insertOrIgnore t (literal, "on", reading)) db.kanji_reading)
    kanji_meaning :=
      (dedupPreserve rec.meanings_en).foldl
        (fun t meaning => insertOrIgnore t (literal, "en", meaning)) db.kanji_meaning
    kanji_variant :=
      (dedupPreserve rec.variants).foldl
        (fun t v => insertOrIgnore t (literal, v.1, v.2)) db.kanji_variant }

/-- A parse event of `ET.iterparse(..., events=("start", "end"))` after the
root-start event that `build_sqlite` consumes with `next(context)`. -/
inductive Event where
  | start (tag : String)
  | stop (e : XmlElem)
deriving Repr, DecidableEq

/-- The loop state of `build_sqlite` (builder.py lines 343–345), together
with the database rows written so far and the number of `conn.commit()`
calls issued inside the loop. -/
structure BuildState where
  count : Nat := 0
  batch : Nat := 0
  openRec : Option KanjiRecord := none
  db : Db := {}
  commits : Nat := 0
deriving Repr, DecidableEq

/-- One iteration of the event loop of `build_sqlite`
(builder.py lines 347–365). -/
def buildStep (batchSize : Nat) (st : BuildState) (ev : Event) : BuildState :=
  match ev with
  | .start tag => { st with openRec := processStartElement tag st.openRec }
  | .stop e =>
    match st.openRec with
    | some r =>
      if e.tag = "character" ∧ r.literal ≠ "" then
        let batch := st.batch + 1
        { st with
          db := insertCharacterData st.db r
          count := st.count + 1
          batch := if batch ≥ batchSize then 0 else batch
          commits := if batch ≥ batchSize then st.commits + 1 else st.commits
          openRec := none }
      else { st with openRec := processEndElement e.tag e (some r) }
    | none => { st with openRec := processEndElement e.tag e none }

/-- The event loop of `build_sqlite` run over a whole event stream. -/
def runBuild (batchSize : Nat) (events : List Event) : BuildState :=
  events.foldl (buildStep batchSize) {}

/-- The default `batch_size` of `build_sqlite` (builder.py line 333). -/
def defaultBatchSize : Nat := 500

/-- The kind of a schema object, as SQLite's catalog distinguishes them. -/
inductive ObjKind where
  | table
  | index
  | view
deriving Repr, DecidableEq

/-- One statement of the `ensure_schema` DDL script, reduced to what decides
whether executing it succeeds: what it creates, the created object's name,
an index's target, and whether it carries `IF NOT EXISTS`.  `pragma`,
`vacuum` and `analyze` never fail here. -/
inductive SqlStmt where
  | pragma (text : String)
  | createTable (name : String) (ifNotExists : Bool)
  | createIndex (name : String) (target : String) (ifNotExists : Bool)
  | createView (name : String) (ifNotExists : Bool)
  | vacuum
  | analyze
deriving Repr, DecidableEq

/-- The `executescript` body of `ensure_schema` (builder.py lines 24–143),
statement by statement in source order, each index with the table or view it
is declared on.  Note that `idx_seed_lvl`, `idx_seed_lit` and `idx_pool_lvl`
(lines 134–136) target the views `kanji_seed` and `distractor_pool`. -/
def ensureSchemaScript : List SqlStmt :=
  [ .pragma "journal_mode=WAL",
    .pragma "synchronous=NORMAL",
    .pragma "temp_store=MEMORY",
    .pragma "foreign_keys=OFF",
    .createTable "kanji" true,
    .createTable "kanji_radical" true,
    .createTable "kanji_reading" true,
    .createTable "kanji_meaning" true,
    .createTable "kanji_variant" true,
    .createIndex "idx_kanji_freq" "kanji" true,
    .createIndex "idx_reading" "kanji_reading" true,
    .createIndex "idx_meaning" "kanji_meaning" true,
    .createIndex "ux_reading" "kanji_reading" true,
    .createIndex "ux_meaning" "kanji_meaning" true,
    .createIndex "ux_radical" "kanji_radical" true,
    .createIndex "ux_variant" "kanji_variant" true,
    .createView "kanji_priority" true,
    .createView "kanji_seed" false,
    .createView "distractor_pool" false,
    .createIndex "idx_kanji_seed_lvl" "kanji" true,
    .createIndex "idx_kanji_seed_literal" "kanji" true,
    .createIndex "idx_meaning_for_distractor" "kanji_meaning" true,
    .createIndex "idx_seed_lvl" "kanji_seed" true,
    .createIndex "idx_seed_lit" "kanji_seed" true,
    .createIndex "idx_pool_lvl" "distractor_pool" true,
    .pragma "journal_mode=WAL",
    .pragma "synchronous=NORMAL",
    .vacuum,
    .analyze ]

/-- The kind registered for a schema object name, if any. -/
def lookupKind (objs : List (String × ObjKind)) (n : String) : Option ObjKind :=
  (objs.find? (fun p => p.1 = n)).map (fun p => p.2)

/-- SQLite semantics of one DDL statement over the existing schema objects:
creating an object whose name exists fails without `IF NOT EXISTS` and is a
no-op with it; `CREATE INDEX` first resolves its target — a missing target
is `no such table` and a view target is refused with `views may not be
indexed` (this check precedes the `IF NOT EXISTS` name check). -/
def execStmt (objs : List (String × ObjKind)) :
    SqlStmt → Except String (List (String × ObjKind))
  | .pragma _ => .ok objs
  | .vacuum => .ok objs
  | .analyze => .ok objs
  | .createTable n ine =>
    if (lookupKind objs n).isSome then
      (if ine then .ok objs else .error (n ++ " already exists"))
    else .ok (objs ++ [(n, ObjKind.table)])
  | .createView n ine =>
    if (lookupKind objs n).isSome then
      (if ine then .ok objs else .error (n ++ " already exists"))
    else .ok (objs ++ [(n, ObjKind.view)])
  | .createIndex n target ine =>
    match lookupKind objs target with
    | none => .error ("no such table: " ++ target)
    | some ObjKind.index => .error ("no such table: " ++ target)
    | some ObjKind.view => .error "views may not be indexed"
    | some ObjKind.table =>
      if (lookupKind objs n).isSome then
        (if ine then .ok objs else .error (n ++ " already exists"))
      else .ok (objs ++ [(n, ObjKind.index)])

/-- Run a DDL script over the existing schema objects; `executescript`
aborts at the first failing statement and raises its error. -/
def runScript (stmts : List SqlStmt) (objs : List (String × ObjKind)) :
    Except String (List (String × ObjKind)) :=
  match stmts with
  | [] => .ok objs
  | s :: rest =>
    match execStmt objs s with
    | .ok objs2 => runScript rest objs2
    | .error msg => .error msg

/-- The schema objects left behind by a (possibly aborted) script run: each
DDL statement autocommits, so everything created before the first failing
statement persists. -/
def objectsAfter (stmts : List SqlStmt) (objs : List (String × ObjKind)) :
    List (String × ObjKind) :=
  match stmts with
  | [] => objs
  | s :: rest =>
    match execStmt objs s with
    | .ok objs2 => objectsAfter rest objs2
    | .error _ => objs

/-- The statements of a script that actually execute: the prefix before the
first failing statement. -/
def executedPrefix (stmts : List SqlStmt) (objs : List (String × ObjKind)) :
    List SqlStmt :=
  match stmts with
  | [] => []
  | s :: rest =>
    match execStmt objs s with
    | .ok objs2 => s :: executedPrefix rest objs2
    | .error _ => []

/-- `build_sqlite` on a fresh destination, with the `ensure_schema` phase
included (builder.py lines 333–370): the schema script runs first, and its
first error propagates as the raised exception; only a successful script
would reach the parse loop and return the loop's count. -/
def buildSqliteResult (batchSize : Nat) (events : List Event) : Except String Nat :=
  match runScript ensureSchemaScript [] with
  | .error msg => .error msg
  | .ok _ => .ok (runBuild batchSize events).count

/-- The derived proficiency level exactly as the specification words it:
legacy level first (4→5, 3→4, 2→3, 1→2), otherwise the frequency tiers
(rank set and ≤200 with grade 1–2 → 5; ≤500 with grade 3–4 → 4; ≤1000 with
grade 5–6 → 3), otherwise 1.  Written from the spec's sentences, to be
compared with `calculateModernJlpt` (from the source). -/
def claimedLevel (grade freq legacy : Option Nat) : Nat :=
  if legacy = some 4 then 5
  else if legacy = some 3 then 4
  else if legacy = some 2 then 3
  else if legacy = some 1 then 2
  else
    match freq with
    | none => 1
    | some f =>
      if f ≤ 200 ∧ (grade = some 1 ∨ grade = some 2) then 5
      else if f ≤ 500 ∧ (grade = some 3 ∨ grade = some 4) then 4
      else if f ≤ 1000 ∧ (grade = some 5 ∨ grade = some 6) then 3
      else 1

/-- The specification's reading of one stroke-count entry: its value when the
trimmed text is a valid non-negative integer, nothing otherwise. -/
def strokeVal (e : XmlElem) : Option Nat :=
  match e.txt with
  | none => none
  | some t => if pyIsDigit (pyStrip t) then some (digitVal (pyStrip t)) else none

end K2Sqlite

namespace K2Sqlite

/-- C1: `_calculate_modern_jlpt` computes, on every input triple, exactly the
level the specification's precedence list describes: legacy level always
first (4→5, 3→4, 2→3, 1→2), then the three frequency/grade tiers, else 1. -/
theorem modern_jlpt_matches_claimed_levels (grade freq legacy : Option Nat) :
    calculateModernJlpt grade freq legacy = claimedLevel grade freq legacy := by
  rcases freq with _ | f <;>
    simp only [calculateModernJlpt, claimedLevel] <;>
    split_ifs <;>
    simp_all

/-- C2: schema creation is not idempotent — it is broken outright.  The
`ensure_schema` script creates `kanji_seed` and `distractor_pool` as views
(builder.py lines 101, 122) and then tries to index them (`idx_seed_lvl`,
`idx_seed_lit`, `idx_pool_lvl`, lines 134–136); SQLite refuses with
`views may not be indexed`, so the very first run on a fresh database
aborts, and a rerun against the partially created schema aborts even
earlier, at `CREATE VIEW kanji_seed` (written without `IF NOT EXISTS`).
No run ever succeeds, contradicting the claimed create-if-absent /
second-build-succeeds behaviour. -/
theorem ensure_schema_first_run_fails :
    runScript ensureSchemaScript [] = .error "views may not be indexed"
    ∧ runScript ensureSchemaScript (objectsAfter ensureSchemaScript [])
        = .error "kanji_seed already exists" := by
  exact ⟨rfl, rfl⟩

/-- C8 (counterexample): the maintenance pass is not run after the full
load — it is never run at all, and no load happens.  `VACUUM` and `ANALYZE`
are not among the statements of `ensure_schema` that actually execute (the
script aborts earlier, at `CREATE INDEX idx_seed_lvl ON kanji_seed`), and
`build_sqlite` propagates that error before its parse loop. -/
theorem maintenance_pass_never_runs :
    SqlStmt.vacuum ∉ executedPrefix ensureSchemaScript []
    ∧ SqlStmt.analyze ∉ executedPrefix ensureSchemaScript []
    ∧ (buildSqliteResult 500 []).isOk = false := by
  refine ⟨by decide, by decide, rfl⟩

/-- C8 (amended): the `VACUUM; ANALYZE;` maintenance pass stands at the very
end of the `ensure_schema` script — before the load in program order, not
after it — but it never executes: the script runs exactly its first 22
statements and aborts at the 23rd, `CREATE INDEX idx_seed_lvl ON kanji_seed`
(builder.py line 134), before reaching the maintenance statements, so no
maintenance pass (and no load) ever happens. -/
theorem maintenance_written_last_but_never_reached :
    ensureSchemaScript.drop 27 = [SqlStmt.vacuum, SqlStmt.analyze]
    ∧ ensureSchemaScript.take 27 =
        (ensureSchemaScript.take 27).filter
          (fun st => !(st == SqlStmt.vacuum || st == SqlStmt.analyze))
    ∧ executedPrefix ensureSchemaScript [] = ensureSchemaScript.take 22
    ∧ ensureSchemaScript.drop 22
        = SqlStmt.createIndex "idx_seed_lvl" "kanji_seed" true ::
            ensureSchemaScript.drop 23 := by
  refine ⟨rfl, by decide, by decide, rfl⟩

/-- A `<character>` start event. -/
def charStart : Event := .start "character"

/-- A `</character>` end event. -/
def charEnd : Event := .stop { tag := "character" }

/-- A `</literal>` end event carrying the given text. -/
def litStop (s : String) : Event := .stop { tag := "literal", txt := some s }

/-- An event stream whose second record-start arrives while the first record
(already holding literal `水`) is still open. -/
def nestedStartEvents : List Event :=
  [charStart, litStop "水", .start "character"]

/-- C4 (counterexample): a nested record-start does not fail — the builder has
no `StructuralError` (no such exception exists anywhere in the source), and
`_process_start_element` unconditionally returns a fresh record.  Running the
loop on a stream whose second `<character>` start arrives while a record
holding literal `水` is still open completes normally, with the open record
silently replaced by a fresh empty one and nothing inserted. -/
theorem nested_start_raises_no_error :
    runBuild 500 nestedStartEvents
      = { count := 0, batch := 0, openRec := some emptyRecord, db := {}, commits := 0 } := by
  rfl

/-- C4 (amended): a record-start seen while a record is already open silently
discards the open record and opens a fresh empty one; the pipeline continues
and no error of any kind is raised. -/
theorem nested_start_opens_fresh_record (batchSize : Nat) (st : BuildState) :
    buildStep batchSize st (.start "character") = { st with openRec := some emptyRecord }
    ∧ ∀ rec : Option KanjiRecord, processStartElement "character" rec = some emptyRecord := by
  constructor
  · simp [buildStep, processStartElement]
  · intro rec
    simp [processStartElement]

/-- C9 (counterexample): a record-end whose record has an empty literal does
not return the accumulator to Idle.  After `<character>` start directly
followed by `</character>` end, the open (empty-literal) record is neither
emitted nor dropped: `rec` is still the open record, because the skip branch
routes the `character` end tag through `_process_end_element`, which leaves
the record unchanged, instead of resetting `rec = None`. -/
theorem empty_literal_record_end_stays_open :
    (runBuild 500 [charStart, charEnd]).openRec = some emptyRecord
    ∧ (runBuild 500 [charStart, charEnd]).openRec ≠ none
    ∧ runBuild 500 [charStart, charEnd]
        = { count := 0, batch := 0, openRec := some emptyRecord, db := {}, commits := 0 } := by
  refine ⟨rfl, by decide, rfl⟩

/-- C9 (amended): on a record-end event with a record open, the accumulator
returns to Idle only when the literal is non-empty — the record is then
emitted to the writer and dropped; with an empty literal the record is
not emitted, but the loop state is left entirely unchanged, so the record
stays open and can still be mutated by later events before the next
record-start. -/
theorem record_end_transitions (batchSize : Nat) (st : BuildState) (e : XmlElem)
    (r : KanjiRecord) (htag : e.tag = "character") (hopen : st.openRec = some r) :
    (r.literal ≠ "" →
        (buildStep batchSize st (.stop e)).openRec = none
        ∧ (buildStep batchSize st (.stop e)).db = insertCharacterData st.db r
        ∧ (buildStep batchSize st (.stop e)).count = st.count + 1)
    ∧ (r.literal = "" → buildStep batchSize st (.stop e) = st) := by
  constructor
  · intro hlit
    simp [buildStep, hopen, htag, hlit]
  · intro hlit
    have hne : ¬ (e.tag = "character" ∧ r.literal ≠ "") := by simp [hlit]
    simp [buildStep, hopen, hne, processEndElement, htag, hlit]
    rw [← hopen]

/-- Witness for `record_end_transitions`: a concrete loop state holding an
open record with literal `水`, hit by a `</character>` end event. -/
theorem record_end_transitions_witness :
    ({ tag := "character" } : XmlElem).tag = "character"
    ∧ ({ openRec := some { literal := "水" } } : BuildState).openRec
        = some { literal := "水" }
    ∧ ((({ literal := "水" } : KanjiRecord).literal ≠ "" →
          (buildStep 500 { openRec := some { literal := "水" } }
              (.stop { tag := "character" })).openRec = none
          ∧ (buildStep 500 { openRec := some { literal := "水" } }
              (.stop { tag := "character" })).db
              = insertCharacterData ({} : Db) { literal := "水" }
          ∧ (buildStep 500 { openRec := some { literal := "水" } }
              (.stop { tag := "character" })).count = 0 + 1)
        ∧ (({ literal := "水" } : KanjiRecord).literal = "" →
            buildStep 500 { openRec := some { literal := "水" } }
              (.stop { tag := "character" })
              = { openRec := some { literal := "水" } })) := by
  refine ⟨rfl, rfl, record_end_transitions 500 _ _ _ rfl rfl⟩

/-- `_parse_integer_field` in terms of the per-entry reading `strokeVal`. -/
lemma parseIntegerField_eq_strokeVal (e : XmlElem) (cur : Option Nat) :
    parseIntegerField e cur =
      match strokeVal e, cur with
      | none, c => c
      | some v, none => some v
      | some v, some c => some (max c v) := by
  rcases e with ⟨tag, txt, attrs⟩
  rcases txt with _ | t
  · cases cur <;> rfl
  · by_cases hd : pyIsDigit (pyStrip t) <;> cases cur <;>
      simp [parseIntegerField, strokeVal, hd]

/-- Folding `_parse_integer_field` from a set value takes the running `max`
over the valid entries. -/
lemma foldl_parse_some (entries : List XmlElem) (c : Nat) :
    entries.foldl (fun cur e => parseIntegerField e cur) (some c)
      = some ((entries.filterMap strokeVal).foldl max c) := by
  induction entries generalizing c with
  | nil => rfl
  | cons e rest ih =>
    rw [List.foldl_cons, parseIntegerField_eq_strokeVal]
    cases hv : strokeVal e with
    | none => simpa [List.filterMap_cons, hv] using ih c
    | some v => simpa [List.filterMap_cons, hv] using ih (max c v)

/-- Folding `_parse_integer_field` from an unset value yields the maximum of
the valid entries, or leaves the field unset when there is none. -/
lemma foldl_parse_none (entries : List XmlElem) :
    entries.foldl (fun cur e => parseIntegerField e cur) none
      = (entries.filterMap strokeVal).max? := by
  induction entries with
  | nil => rfl
  | cons e rest ih =>
    rw [List.foldl_cons, parseIntegerField_eq_strokeVal]
    cases hv : strokeVal e with
    | none => simpa [List.filterMap_cons, hv] using ih
    | some v => simp [List.filterMap_cons, hv, List.max?, foldl_parse_some]

/-- A `stroke_count` end element carries only the stroke-count update. -/
lemma processEnd_stroke (e : XmlElem) (r : KanjiRecord) :
    processEndElement "stroke_count" e (some r)
      = some { r with stroke_count := parseIntegerField e r.stroke_count } := rfl

/-- Folding `stroke_count` end events over a record folds
`_parse_integer_field` over its stroke-count field. -/
lemma foldl_processEnd_stroke (entries : List XmlElem) (r : KanjiRecord) :
    entries.foldl (fun rec e => processEndElement "stroke_count" e rec) (some r)
      = some { r with stroke_count :=
          entries.foldl (fun cur e => parseIntegerField e cur) r.stroke_count } := by
  induction entries generalizing r with
  | nil => simp
  | cons e rest ih => simp [processEnd_stroke, ih]

/-- A `</stroke_count>` element with the given text. -/
def strokeElem (s : String) : XmlElem := { tag := "stroke_count", txt := some s }

/-- C5: after any sequence of stroke-count end events, the record's stored
stroke count is the maximum over the entries whose trimmed text is a valid
non-negative integer; an invalid entry leaves the value unchanged; and the
entries `[4, 4]` store the value 4, not a sum. -/
theorem stroke_count_stored_as_max (entries : List XmlElem) :
    (entries.foldl (fun rec e => processEndElement "stroke_count" e rec)
        (some emptyRecord)
      = some { emptyRecord with stroke_count := (entries.filterMap strokeVal).max? })
    ∧ (∀ (e : XmlElem) (cur : Option Nat),
        strokeVal e = none → parseIntegerField e cur = cur)
    ∧ ([strokeElem "4", strokeElem "4"].foldl
        (fun rec e => processEndElement "stroke_count" e rec) (some emptyRecord)
      = some { emptyRecord with stroke_count := some 4 }) := by
  refine ⟨?_, ?_, by decide⟩
  · rw [foldl_processEnd_stroke]
    have : emptyRecord.stroke_count = none := rfl
    rw [this, foldl_parse_none]
  · intro e cur hv
    rw [parseIntegerField_eq_strokeVal, hv]

/-- `build_sqlite` loop equation: a start event only updates the open record. -/
lemma buildStep_start (batchSize : Nat) (st : BuildState) (tag : String) :
    buildStep batchSize st (.start tag)
      = { st with openRec := processStartElement tag st.openRec } := rfl

/-- `build_sqlite` loop equation: an end event with no open record only runs
`_process_end_element` (which keeps the record absent). -/
lemma buildStep_stop_none (batchSize : Nat) (st : BuildState) (e : XmlElem)
    (hr : st.openRec = none) :
    buildStep batchSize st (.stop e)
      = { st with openRec := processEndElement e.tag e none } := by
  simp [buildStep, hr]

/-- `build_sqlite` loop equation: the accept branch (builder.py lines 353–363). -/
lemma buildStep_stop_insert (batchSize : Nat) (st : BuildState) (e : XmlElem)
    (r : KanjiRecord) (hr : st.openRec = some r)
    (hc : e.tag = "character" ∧ r.literal ≠ "") :
    buildStep batchSize st (.stop e)
      = { st with
          db := insertCharacterData st.db r
          count := st.count + 1
          batch := if st.batch + 1 ≥ batchSize then 0 else st.batch + 1
          commits := if st.batch + 1 ≥ batchSize then st.commits + 1 else st.commits
          openRec := none } := by
  simp [buildStep, hr, hc]

/-- `build_sqlite` loop equation: the skip branch (builder.py lines 364–365). -/
lemma buildStep_stop_skip (batchSize : Nat) (st : BuildState) (e : XmlElem)
    (r : KanjiRecord) (hr : st.openRec = some r)
    (hc : ¬ (e.tag = "character" ∧ r.literal ≠ "")) :
    buildStep batchSize st (.stop e)
      = { st with openRec := processEndElement e.tag e (some r) } := by
  simp only [buildStep, hr]
  rw [if_neg hc]

/-- `_dedup_preserve` keeps a subsequence of its input. -/
lemma dedupAux_sublist {α : Type} [DecidableEq α] (seen : List α) (l : List α) :
    List.Sublist (dedupAux seen l) l := by
  induction l generalizing seen with
  | nil => simp [dedupAux]
  | cons x xs ih =>
    by_cases hx : x ∈ seen
    · rw [dedupAux, if_pos hx]
      exact (ih seen).trans (List.sublist_cons_self x xs)
    · rw [dedupAux, if_neg hx]
      exact (ih (x :: seen)).cons₂ x

/-- Membership after `_dedup_preserve`: present in the input and not
already seen. -/
lemma dedupAux_mem {α : Type} [DecidableEq α] (seen l : List α) (a : α) :
    a ∈ dedupAux seen l ↔ a ∈ l ∧ a ∉ seen := by
  induction l generalizing seen with
  | nil => simp [dedupAux]
  | cons x xs ih =>
    by_cases hx : x ∈ seen
    · rw [dedupAux, if_pos hx, ih, List.mem_cons]
      constructor
      · rintro ⟨hm, hs⟩
        exact ⟨Or.inr hm, hs⟩
      · rintro ⟨hm | hm, hs⟩
        · subst hm; exact absurd hx hs
        · exact ⟨hm, hs⟩
    · simp only [dedupAux, if_neg hx, List.mem_cons, ih, not_or]
      constructor
      · rintro (rfl | ⟨hm, hax, hs⟩)
        · exact ⟨Or.inl rfl, hx⟩
        · exact ⟨Or.inr hm, hs⟩
      · rintro ⟨rfl | hm, hs⟩
        · exact Or.inl rfl
        · by_cases hax : a = x
          · exact Or.inl hax
          · exact Or.inr ⟨hm, hax, hs⟩

/-- `_dedup_preserve` returns a duplicate-free list. -/
lemma dedupAux_nodup {α : Type} [DecidableEq α] (seen l : List α) :
    (dedupAux seen l).Nodup := by
  induction l generalizing seen with
  | nil => simp [dedupAux]
  | cons x xs ih =>
    by_cases hx : x ∈ seen
    · simp only [dedupAux, if_pos hx]; exact ih seen
    · simp only [dedupAux, if_neg hx, List.nodup_cons]
      refine ⟨fun hmem => ?_, ih (x :: seen)⟩
      exact ((dedupAux_mem (x :: seen) xs x).mp hmem).2 (List.mem_cons_self x seen)

/-- The `seen` set of `_dedup_preserve` only matters as a set. -/
lemma dedupAux_seen_congr {α : Type} [DecidableEq α] (s1 s2 l : List α)
    (h : ∀ a, a ∈ s1 ↔ a ∈ s2) : dedupAux s1 l = dedupAux s2 l := by
  induction l generalizing s1 s2 with
  | nil => rfl
  | cons x xs ih =>
    by_cases hx : x ∈ s1
    · simp only [dedupAux, if_pos hx, if_pos ((h x).mp hx)]
      exact ih s1 s2 h
    · have hx2 : x ∉ s2 := fun h2 => hx ((h x).mpr h2)
      simp only [dedupAux, if_neg hx, if_neg hx2]
      refine congrArg (x :: ·) (ih _ _ fun a => ?_)
      simp only [List.mem_cons, h a]

/-- Marking an element as seen filters all its later occurrences out. -/
lemma dedupAux_cons_seen {α : Type} [DecidableEq α] (x : α) (seen l : List α) :
    dedupAux (x :: seen) l = dedupAux seen (l.filter (fun y => y ≠ x)) := by
  induction l generalizing seen with
  | nil => rfl
  | cons y ys ih =>
    by_cases hyx : y = x
    · subst hyx
      have hdrop : (y :: ys).filter (fun z => z ≠ y) = ys.filter (fun z => z ≠ y) := by
        simp [List.filter_cons]
      rw [hdrop, dedupAux, if_pos (List.mem_cons_self y seen)]
      exact ih seen
    · have hkeep : (y :: ys).filter (fun z => z ≠ x)
          = y :: ys.filter (fun z => z ≠ x) :=
        List.filter_cons_of_pos (by simp [hyx])
      by_cases hys : y ∈ seen
      · have hmem : y ∈ x :: seen := List.mem_cons_of_mem x hys
        calc dedupAux (x :: seen) (y :: ys)
            = dedupAux (x :: seen) ys := by rw [dedupAux, if_pos hmem]
          _ = dedupAux seen (ys.filter (fun z => z ≠ x)) := ih seen
          _ = dedupAux seen ((y :: ys).filter (fun z => z ≠ x)) := by
                rw [hkeep, dedupAux, if_pos hys]
      · have hmem : y ∉ x :: seen := by
          rw [List.mem_cons]
          rintro (h | h)
          · exact hyx h
          · exact hys h
        calc dedupAux (x :: seen) (y :: ys)
            = y :: dedupAux (y :: x :: seen) ys := by rw [dedupAux, if_neg hmem]
          _ = y :: dedupAux (x :: y :: seen) ys := by
                rw [dedupAux_seen_congr (y :: x :: seen) (x :: y :: seen) ys
                  (fun a => by rw [List.mem_cons, List.mem_cons, List.mem_cons,
                    List.mem_cons]; tauto)]
          _ = y :: dedupAux (y :: seen) (ys.filter (fun z => z ≠ x)) := by
                rw [ih (y :: seen)]
          _ = dedupAux seen ((y :: ys).filter (fun z => z ≠ x)) := by
                rw [hkeep, dedupAux, if_neg hys]

/-- First-seen semantics of `_dedup_preserve`: the head is kept and all its
later occurrences are dropped. -/
lemma dedupPreserve_cons {α : Type} [DecidableEq α] (x : α) (l : List α) :
    dedupPreserve (x :: l) = x :: dedupPreserve (l.filter (fun y => y ≠ x)) := by
  simp only [dedupPreserve, dedupAux, List.not_mem_nil, if_neg]
  exact congrArg (x :: ·) (dedupAux_cons_seen x [] l)

/-- `INSERT OR IGNORE` preserves freedom from duplicate rows. -/
lemma insertOrIgnore_nodup {α : Type} [DecidableEq α] {tbl : List α}
    (h : tbl.Nodup) (row : α) : (insertOrIgnore tbl row).Nodup := by
  unfold insertOrIgnore
  split
  · exact h
  · next hrow => simp [List.nodup_append, h, hrow]

/-- A run of `INSERT OR IGNORE` inserts preserves freedom from duplicates. -/
lemma foldl_insertOrIgnore_nodup {α β : Type} [DecidableEq α] (f : β → α)
    (items : List β) {tbl : List α} (h : tbl.Nodup) :
    (items.foldl (fun t x => insertOrIgnore t (f x)) tbl).Nodup := by
  induction items generalizing tbl with
  | nil => exact h
  | cons x xs ih => exact ih (insertOrIgnore_nodup h (f x))

/-- `_insert_character_data` keeps every child table free of duplicate rows. -/
lemma insertCharacterData_child_nodup (db : Db) (rec : KanjiRecord)
    (h1 : db.kanji_radical.Nodup) (h2 : db.kanji_reading.Nodup)
    (h3 : db.kanji_meaning.Nodup) (h4 : db.kanji_variant.Nodup) :
    (insertCharacterData db rec).kanji_radical.Nodup
    ∧ (insertCharacterData db rec).kanji_reading.Nodup
    ∧ (insertCharacterData db rec).kanji_meaning.Nodup
    ∧ (insertCharacterData db rec).kanji_variant.Nodup := by
  refine ⟨?_, ?_, ?_, ?_⟩ <;> simp only [insertCharacterData]
  · exact foldl_insertOrIgnore_nodup _ _ h1
  · exact foldl_insertOrIgnore_nodup _ _ (foldl_insertOrIgnore_nodup _ _ h2)
  · exact foldl_insertOrIgnore_nodup _ _ h3
  · exact foldl_insertOrIgnore_nodup _ _ h4

/-- One loop step of `build_sqlite` keeps every child table duplicate-free. -/
lemma buildStep_child_nodup (batchSize : Nat) (st : BuildState) (ev : Event)
    (h1 : st.db.kanji_radical.Nodup) (h2 : st.db.kanji_reading.Nodup)
    (h3 : st.db.kanji_meaning.Nodup) (h4 : st.db.kanji_variant.Nodup) :
    (buildStep batchSize st ev).db.kanji_radical.Nodup
    ∧ (buildStep batchSize st ev).db.kanji_reading.Nodup
    ∧ (buildStep batchSize st ev).db.kanji_meaning.Nodup
    ∧ (buildStep batchSize st ev).db.kanji_variant.Nodup := by
  cases ev with
  | start tag => exact ⟨h1, h2, h3, h4⟩
  | stop e =>
    cases hr : st.openRec with
    | none =>
      rw [buildStep_stop_none batchSize st e hr]
      exact ⟨h1, h2, h3, h4⟩
    | some r =>
      by_cases hc : e.tag = "character" ∧ r.literal ≠ ""
      · rw [buildStep_stop_insert batchSize st e r hr hc]
        exact insertCharacterData_child_nodup st.db r h1 h2 h3 h4
      · rw [buildStep_stop_skip batchSize st e r hr hc]
        exact ⟨h1, h2, h3, h4⟩

/-- Across a whole run of the loop, every child table stays duplicate-free. -/
lemma runBuild_child_nodup (batchSize : Nat) (events : List Event) (st : BuildState)
    (h1 : st.db.kanji_radical.Nodup) (h2 : st.db.kanji_reading.Nodup)
    (h3 : st.db.kanji_meaning.Nodup) (h4 : st.db.kanji_variant.Nodup) :
    (events.foldl (buildStep batchSize) st).db.kanji_radical.Nodup
    ∧ (events.foldl (buildStep batchSize) st).db.kanji_reading.Nodup
    ∧ (events.foldl (buildStep batchSize) st).db.kanji_meaning.Nodup
    ∧ (events.foldl (buildStep batchSize) st).db.kanji_variant.Nodup := by
  induction events generalizing st with
  | nil => exact ⟨h1, h2, h3, h4⟩
  | cons ev rest ih =>
    rw [List.foldl_cons]
    obtain ⟨g1, g2, g3, g4⟩ := buildStep_child_nodup batchSize st ev h1 h2 h3 h4
    exact ih (buildStep batchSize st ev) g1 g2 g3 g4

/-- C6: `_dedup_preserve` deduplicates preserving first-seen order (its output
is a duplicate-free subsequence of the input with the same members, keeping
the head and dropping its later occurrences), and across any run of the build
loop no child-table row — in particular no `(literal, type, reading)` triple
of `kanji_reading` — is ever stored twice. -/
theorem child_rows_deduped_and_unique :
    (∀ (α : Type) [DecidableEq α] (l : List α),
        (dedupPreserve l).Nodup ∧ List.Sublist (dedupPreserve l) l
          ∧ ∀ x : α, x ∈ dedupPreserve l ↔ x ∈ l)
    ∧ (∀ (α : Type) [DecidableEq α] (x : α) (l : List α),
        dedupPreserve (x :: l) = x :: dedupPreserve (l.filter (fun y => y ≠ x)))
    ∧ (∀ (batchSize : Nat) (events : List Event),
        (runBuild batchSize events).db.kanji_reading.Nodup
        ∧ (runBuild batchSize events).db.kanji_radical.Nodup
        ∧ (runBuild batchSize events).db.kanji_meaning.Nodup
        ∧ (runBuild batchSize events).db.kanji_variant.Nodup) := by
  refine ⟨?_, ?_, ?_⟩
  · intro α hdec l
    refine ⟨dedupAux_nodup [] l, dedupAux_sublist [] l, fun x => ?_⟩
    simp [dedupPreserve, dedupAux_mem]
  · intro α hdec x l
    exact dedupPreserve_cons x l
  · intro batchSize events
    obtain ⟨g1, g2, g3, g4⟩ :=
      runBuild_child_nodup batchSize events {} (by simp) (by simp) (by simp) (by simp)
    exact ⟨g2, g1, g3, g4⟩

/-- Rows of the `kanji` table after any run of the loop: any property enjoyed
by every freshly built row (`kanjiRowOf` of an accepted record) holds of every
stored row. -/
lemma runBuild_kanji_rows (batchSize : Nat) (events : List Event) (st : BuildState)
    (P : KanjiRow → Prop)
    (hnew : ∀ rec : KanjiRecord, rec.literal ≠ "" → P (kanjiRowOf rec))
    (h : ∀ row ∈ st.db.kanji, P row) :
    ∀ row ∈ (events.foldl (buildStep batchSize) st).db.kanji, P row := by
  induction events generalizing st with
  | nil => exact h
  | cons ev rest ih =>
    rw [List.foldl_cons]
    apply ih
    cases ev with
    | start tag =>
      rw [buildStep_start]
      exact h
    | stop e =>
      cases hr : st.openRec with
      | none =>
        rw [buildStep_stop_none batchSize st e hr]
        exact h
      | some r =>
        by_cases hc : e.tag = "character" ∧ r.literal ≠ ""
        · rw [buildStep_stop_insert batchSize st e r hr hc]
          intro row hrow
          have hmem : row ∈ upsertKanji st.db.kanji (kanjiRowOf r) := hrow
          unfold upsertKanji at hmem
          rcases List.mem_append.mp hmem with hm | hm
          · exact h row (List.mem_of_mem_filter hm)
          · rw [List.mem_singleton] at hm
            subst hm
            exact hnew r hc.2
        · rw [buildStep_stop_skip batchSize st e r hr hc]
          exact h

/-- C3: records are committed downstream exactly when their literal is
non-empty.  Every stored `kanji` row has a non-empty literal; at a
record-end event for an open record, a non-empty literal yields the insert
(and increments the returned count), while an empty literal leaves the
whole loop state — every table and the count — untouched (a skip, not an
error: the loop is a total function). -/
theorem insert_only_nonempty_literal (batchSize : Nat) (events : List Event)
    (st : BuildState) (e : XmlElem) (r : KanjiRecord)
    (hopen : st.openRec = some r) (htag : e.tag = "character") :
    (∀ row ∈ (runBuild batchSize events).db.kanji, row.literal ≠ "")
    ∧ (r.literal ≠ "" →
        (buildStep batchSize st (.stop e)).db = insertCharacterData st.db r
        ∧ (buildStep batchSize st (.stop e)).count = st.count + 1)
    ∧ (r.literal = "" → buildStep batchSize st (.stop e) = st) := by
  refine ⟨?_, ?_, ?_⟩
  · exact runBuild_kanji_rows batchSize events {} _ (fun rec hlit => hlit)
      (fun row hrow => absurd hrow (List.not_mem_nil row))
  · intro hlit
    rw [buildStep_stop_insert batchSize st e r hopen ⟨htag, hlit⟩]
    exact ⟨rfl, rfl⟩
  · intro hlit
    have hc : ¬ (e.tag = "character" ∧ r.literal ≠ "") := fun h => h.2 hlit
    rw [buildStep_stop_skip batchSize st e r hopen hc]
    have : processEndElement e.tag e (some r) = some r := by
      rw [htag]
      rfl
    rw [this, ← hopen]

/-- Witness for `insert_only_nonempty_literal`: the concrete loop state with
an open empty record, hit by a `</character>` end event. -/
theorem insert_only_nonempty_literal_witness :
    ({ openRec := some emptyRecord } : BuildState).openRec = some emptyRecord
    ∧ ({ tag := "character" } : XmlElem).tag = "character"
    ∧ ((∀ row ∈ (runBuild 500 []).db.kanji, row.literal ≠ "")
      ∧ (emptyRecord.literal ≠ "" →
          (buildStep 500 { openRec := some emptyRecord }
              (.stop { tag := "character" })).db
            = insertCharacterData ({ openRec := some emptyRecord } : BuildState).db
                emptyRecord
          ∧ (buildStep 500 { openRec := some emptyRecord }
              (.stop { tag := "character" })).count
            = ({ openRec := some emptyRecord } : BuildState).count + 1)
      ∧ (emptyRecord.literal = "" →
          buildStep 500 { openRec := some emptyRecord } (.stop { tag := "character" })
            = { openRec := some emptyRecord })) :=
  ⟨rfl, rfl, insert_only_nonempty_literal 500 [] _ _ _ rfl rfl⟩

/-- One loop step keeps the commit/batch bookkeeping in quotient–remainder
form: `batchSize * commits + batch = count` with `batch < batchSize`. -/
lemma buildStep_commit_inv (batchSize : Nat) (hpos : 0 < batchSize)
    (st : BuildState) (ev : Event)
    (h1 : batchSize * st.commits + st.batch = st.count)
    (h2 : st.batch < batchSize) :
    batchSize * (buildStep batchSize st ev).commits + (buildStep batchSize st ev).batch
      = (buildStep batchSize st ev).count
    ∧ (buildStep batchSize st ev).batch < batchSize := by
  cases ev with
  | start tag =>
    rw [buildStep_start]
    exact ⟨h1, h2⟩
  | stop e =>
    cases hr : st.openRec with
    | none =>
      rw [buildStep_stop_none batchSize st e hr]
      exact ⟨h1, h2⟩
    | some r =>
      by_cases hc : e.tag = "character" ∧ r.literal ≠ ""
      · rw [buildStep_stop_insert batchSize st e r hr hc]
        refine ⟨?_, ?_⟩
        · show batchSize * (if st.batch + 1 ≥ batchSize then st.commits + 1 else st.commits)
              + (if st.batch + 1 ≥ batchSize then 0 else st.batch + 1) = st.count + 1
          by_cases hge : st.batch + 1 ≥ batchSize
          · rw [if_pos hge, if_pos hge, Nat.mul_succ]
            omega
          · rw [if_neg hge, if_neg hge]
            omega
        · show (if st.batch + 1 ≥ batchSize then 0 else st.batch + 1) < batchSize
          by_cases hge : st.batch + 1 ≥ batchSize
          · rw [if_pos hge]
            exact hpos
          · rw [if_neg hge]
            omega
      · rw [buildStep_stop_skip batchSize st e r hr hc]
        exact ⟨h1, h2⟩

/-- The quotient–remainder commit invariant holds across any run of the loop. -/
lemma runBuild_commit_inv (batchSize : Nat) (hpos : 0 < batchSize)
    (events : List Event) (st : BuildState)
    (h1 : batchSize * st.commits + st.batch = st.count)
    (h2 : st.batch < batchSize) :
    batchSize * (events.foldl (buildStep batchSize) st).commits
        + (events.foldl (buildStep batchSize) st).batch
      = (events.foldl (buildStep batchSize) st).count
    ∧ (events.foldl (buildStep batchSize) st).batch < batchSize := by
  induction events generalizing st with
  | nil => exact ⟨h1, h2⟩
  | cons ev rest ih =>
    rw [List.foldl_cons]
    obtain ⟨g1, g2⟩ := buildStep_commit_inv batchSize hpos st ev h1 h2
    exact ih (buildStep batchSize st ev) g1 g2

/-- C7: `build_sqlite` never performs the claimed commit-and-return
behaviour: on any destination the `ensure_schema` phase aborts with
`views may not be indexed` (at `CREATE INDEX idx_seed_lvl ON kanji_seed`,
builder.py line 134) before the parse loop, so no batch commit, no trailing
commit and no returned count ever happen.  The loop body itself (builder.py
lines 347–368) is written to the claimed cadence: had the loop been reached,
for a positive batch size the in-loop commits would number
`count / batch_size` with `count % batch_size` records pending, and the
trailing commit would fire exactly when that remainder is non-zero; the
default batch size is 500. -/
theorem build_raises_before_any_commit (batchSize : Nat) (events : List Event) :
    buildSqliteResult batchSize events = .error "views may not be indexed"
    ∧ (0 < batchSize →
        (runBuild batchSize events).commits
          = (runBuild batchSize events).count / batchSize
        ∧ (runBuild batchSize events).batch
          = (runBuild batchSize events).count % batchSize
        ∧ ((runBuild batchSize events).batch ≠ 0 ↔
            (runBuild batchSize events).count % batchSize ≠ 0))
    ∧ defaultBatchSize = 500 := by
  refine ⟨rfl, ?_, rfl⟩
  intro hpos
  obtain ⟨h0, hb0⟩ := runBuild_commit_inv batchSize hpos events {}
    (by simp) (by simpa using hpos)
  have h1 : batchSize * (runBuild batchSize events).commits
      + (runBuild batchSize events).batch = (runBuild batchSize events).count := h0
  have h2 : (runBuild batchSize events).batch < batchSize := hb0
  have hdiv : (runBuild batchSize events).commits
      = (runBuild batchSize events).count / batchSize := by
    rw [← h1, Nat.mul_add_div hpos, Nat.div_eq_of_lt h2, Nat.add_zero]
  have hmod : (runBuild batchSize events).batch
      = (runBuild batchSize events).count % batchSize := by
    rw [← h1, Nat.mul_add_mod, Nat.mod_eq_of_lt h2]
  exact ⟨hdiv, hmod, by rw [hmod]⟩

/-- The `k.jlpt IS NOT NULL` restriction shared by the `kanji_seed` and
`distractor_pool` views (builder.py lines 118 and 128). -/
def levelNotNull (k : KanjiRow) : Bool := k.jlpt.isSome

/-- The English-meaning condition of the `kanji_seed` view, `EXISTS (SELECT 1
FROM kanji_meaning m WHERE m.literal = k.literal AND m.lang = 'en')`
(builder.py line 119). -/
def hasEnglishMeaning (db : Db) (k : KanjiRow) : Bool :=
  db.kanji_meaning.any (fun m => m.1 == k.literal && m.2.1 == "en")

/-- The whole WHERE clause of the `kanji_seed` view (builder.py lines 118–119). -/
def seedWhere (db : Db) (k : KanjiRow) : Bool :=
  levelNotNull k && hasEnglishMeaning db k

/-- C10: `_calculate_modern_jlpt` always returns an integer in 1..5, every
stored `kanji` row carries `some` such level (never NULL), and therefore the
`jlpt IS NOT NULL` restriction of the quiz-seed and distractor-pool views
never excludes a stored row — on stored rows the seed WHERE clause reduces
to the English-meaning condition alone. -/
theorem derived_level_always_one_to_five (batchSize : Nat) (events : List Event) :
    (∀ grade freq oldJlpt : Option Nat,
        1 ≤ calculateModernJlpt grade freq oldJlpt
        ∧ calculateModernJlpt grade freq oldJlpt ≤ 5)
    ∧ (∀ rec : KanjiRecord,
        (kanjiRowOf rec).jlpt = some (calculateModernJlpt rec.grade rec.freq rec.jlpt))
    ∧ (∀ row ∈ (runBuild batchSize events).db.kanji,
        ∃ v, row.jlpt = some v ∧ 1 ≤ v ∧ v ≤ 5)
    ∧ (∀ row ∈ (runBuild batchSize events).db.kanji,
        levelNotNull row = true
        ∧ seedWhere (runBuild batchSize events).db row
            = hasEnglishMeaning (runBuild batchSize events).db row) := by
  have hrange : ∀ grade freq oldJlpt : Option Nat,
      1 ≤ calculateModernJlpt grade freq oldJlpt
      ∧ calculateModernJlpt grade freq oldJlpt ≤ 5 := by
    intro g f j
    unfold calculateModernJlpt
    split_ifs <;> omega
  have hrows : ∀ row ∈ (runBuild batchSize events).db.kanji,
      ∃ v, row.jlpt = some v ∧ 1 ≤ v ∧ v ≤ 5 := by
    apply runBuild_kanji_rows batchSize events {}
      (fun row => ∃ v, row.jlpt = some v ∧ 1 ≤ v ∧ v ≤ 5)
    · intro rec _
      exact ⟨calculateModernJlpt rec.grade rec.freq rec.jlpt, rfl,
        (hrange rec.grade rec.freq rec.jlpt).1, (hrange rec.grade rec.freq rec.jlpt).2⟩
    · intro row hrow
      exact absurd hrow (List.not_mem_nil row)
  refine ⟨hrange, fun rec => rfl, hrows, ?_⟩
  intro row hrow
  obtain ⟨v, hv, _, _⟩ := hrows row hrow
  have hnn : levelNotNull row = true := by
    rw [levelNotNull, hv]
    rfl
  refine ⟨hnn, ?_⟩
  rw [seedWhere, hnn, Bool.true_and]

end K2Sqlite
